import Mathlib

/-!
Verification of the ATLAS task-execution journal and memory-search utility.

The development shallowly embeds the two core modules:

* `atlas-memory-oracle.js` — keyword extraction, per-line relevance scoring,
  windowed context extraction (`extractKeywords`, `searchFile`, `searchContext`).
* `atlas-tracker.js` — the JSONL execution log
  (`startTask`, `updateTask`, `endTask`, `getTask`, `getTasks`, `readLog`).

Modelling conventions:

* JavaScript strings are lists of characters (`Str := List Char`); JS string
  methods (`toLowerCase`, `trim`, `includes`, `split`) are mapped to the
  corresponding list operations, restricted to their ASCII behaviour.
* Timestamps are integers (milliseconds since the epoch).  The source stores
  ISO-8601 strings and converts back with `new Date(...).getTime()`; since that
  round-trip is exact at millisecond precision we keep the integer form.
* Numbers that can carry fractions (`duration_min`) are rationals; JS
  `Math.round` is `jsRound` (floor of x + 1/2, i.e. round half towards +inf).
* The JSONL backing store is `Option (List LogLine)`: `none` is an absent file
  (ENOENT), and each retained line is either a line that `JSON.parse` turns
  into a record (`LogLine.entry`), an empty line (`LogLine.blank`, removed by
  the `filter(line => line.length > 0)` in `readLog`), or a non-empty line on
  which `JSON.parse` throws (`LogLine.garbage`).  JSON serialisation itself is
  abstracted: `JSON.stringify` always yields a line that parses back.
* Effects are explicit: functions take the store (and the filesystem for the
  oracle, as a name-to-content map) and the current time as arguments and
  return `Except` values; an `.error` result means the function threw before
  any write, leaving the backing store untouched.
* `randomUUID` is modelled by passing the fresh identifier as an argument.
-/

deriving instance DecidableEq for Except

namespace Atlas

/-- A JavaScript string, modelled as its list of characters. -/
abbrev Str := List Char

/-- Embed a Lean string literal as a `Str`. -/
def str (s : String) : Str := s.data

/-- JS `s.toLowerCase()` (ASCII behaviour). -/
def toLowerStr (s : Str) : Str := s.map Char.toLower

/-- JS `s.trim()`: drop leading and trailing whitespace. -/
def jsTrim (s : Str) : Str :=
  ((s.dropWhile Char.isWhitespace).reverse.dropWhile Char.isWhitespace).reverse

/-- JS `haystack.includes(needle)`: contiguous substring test. -/
def includesStr (haystack needle : Str) : Bool := decide (needle <:+: haystack)

/-! ### Memory oracle (`atlas-memory-oracle.js`) -/

/-- The fixed stop-word list of `extractKeywords` (source line 156). -/
def stopWords : List Str :=
  [str "the", str "a", str "an", str "and", str "or", str "but", str "in",
   str "on", str "at", str "to", str "for", str "of", str "with", str "by",
   str "from", str "is", str "are", str "was", str "were", str "be", str "been"]

/-- A character matched by the JS regex class `\w` (ASCII word character). -/
def isWordChar (c : Char) : Bool := c.isAlpha || c.isDigit || c == '_'

/-- JS `query.replace(/[^\w\s-]/g, ' ')`: every character that is not a word
character, whitespace or a hyphen becomes a space. -/
def stripPunct (s : Str) : Str :=
  s.map (fun c => if isWordChar c || c.isWhitespace || c == '-' then c else ' ')

/-- `extractKeywords` (source lines 154-163): lower-case, strip punctuation,
split on whitespace, keep tokens longer than two characters that are not
stop words. -/
def extractKeywords (query : Str) : List Str :=
  ((stripPunct (toLowerStr query)).splitOnP (fun c => c.isWhitespace)).filter
    (fun w => decide (2 < w.length) && !(decide (w ∈ stopWords)))

/-- One per-line hit produced by `searchFile`. -/
structure MatchEntry where
  file : Str
  line : Nat
  score : Nat
  match_line : Str
  context : Str
deriving DecidableEq

/-- The options `searchContext` hands to `searchFile`. -/
structure SearchOptions where
  maxResults : Nat
  contextLines : Nat
  fileName : Str
deriving DecidableEq

/-- The per-line relevance score (source lines 113-122): 10 when the lowered
line contains the full lowered query, plus 2 for each entry of the keyword
list contained in the lowered line. -/
def lineScore (queryLower : Str) (keywords : List Str) (line : Str) : Nat :=
  let lineLower := toLowerStr line
  let base := if includesStr lineLower queryLower then 10 else 0
  keywords.foldl (fun s k => if includesStr lineLower k then s + 2 else s) base

/-- Build the match record pushed for line index `i` (source lines 125-135):
the context window is `contextLines` lines either side, clipped at the file
boundaries, joined with newlines and trimmed. -/
def mkMatch (fileName : Str) (lines : List Str) (contextLines : Nat)
    (i : Nat) (line : Str) (score : Nat) : MatchEntry :=
  let startLine := i - contextLines
  let endLine := min (lines.length - 1) (i + contextLines)
  let context := List.intercalate (str "\n") ((lines.drop startLine).take (endLine + 1 - startLine))
  { file := fileName, line := i + 1, score := score,
    match_line := jsTrim line, context := jsTrim context }

/-- The scanning loop of `searchFile` (source lines 109-141): walk the lines
in order, push a match for every line with positive score, and stop as soon
as the accumulated matches reach `maxResults`. -/
def searchLoop (fileName : Str) (lines : List Str) (queryLower : Str)
    (keywords : List Str) (maxResults contextLines : Nat) :
    List Str → Nat → List MatchEntry → List MatchEntry
  | [], _, acc => acc
  | line :: rest, i, acc =>
    let score := lineScore queryLower keywords line
    if 0 < score then
      let acc' := acc ++ [mkMatch fileName lines contextLines i line score]
      if maxResults ≤ acc'.length then acc'
      else searchLoop fileName lines queryLower keywords maxResults contextLines rest (i + 1) acc'
    else searchLoop fileName lines queryLower keywords maxResults contextLines rest (i + 1) acc

/-- JS `matches.sort((a, b) => b.score - a.score)`: stable sort by descending
score (ECMAScript requires `Array.prototype.sort` to be stable). -/
def sortByScoreDesc (ms : List MatchEntry) : List MatchEntry :=
  ms.mergeSort (fun a b => decide (b.score ≤ a.score))

/-- `searchFile` (source lines 103-147). -/
def searchFile (content query : Str) (opts : SearchOptions) : List MatchEntry :=
  let lines := content.splitOn '\n'
  let queryLower := toLowerStr query
  let keywords := extractKeywords query
  sortByScoreDesc (searchLoop opts.fileName lines queryLower keywords
    opts.maxResults opts.contextLines lines 0 [])

/-- Words signalling a prior attempt (source line 174). -/
def priorWords : List Str := [str "build", str "implement", str "create"]

/-- Words signalling a failure (source lines 179-180). -/
def failureWords : List Str :=
  [str "fail", str "error", str "bug", str "broke", str "issue", str "problem"]

/-- Words signalling a success (source lines 185-186). -/
def successWords : List Str :=
  [str "complete", str "success", str "ship", str "✅", str "done"]

/-- The text `analyzePatterns` scans for one match (source line 171). -/
def matchText (m : MatchEntry) : Str := toLowerStr (m.match_line ++ [' '] ++ m.context)

/-- Count the matches whose scanned text contains any word of `ws`
(source lines 169-190, one counter per fixed word set). -/
def countMentions (ws : List Str) (ms : List MatchEntry) : Nat :=
  ms.countP (fun m => ws.any (fun w => includesStr (matchText m) w))

/-- The only error `searchContext` raises itself: the `ValidationError` of the
spec taxonomy ("Query is required and must be a string"). -/
inductive OracleError
  | validation
deriving DecidableEq

/-- The result object assembled by `searchContext` (summary flattened; the JS
field `matches` is called `matchList` here because `matches` is a reserved
word in Lean). -/
structure SearchResults where
  query : Str
  timestamp : Str
  matchList : List MatchEntry
  total_matches : Nat
  files_searched : Nat
  prior_attempts : Nat
  failures : Nat
  successes : Nat
deriving DecidableEq

/-- Default list of memory files searched (source lines 24-29). -/
def DEFAULT_MEMORY_FILES : List Str :=
  [str "MEMORY.md", str "DEVLOG.md", str "CHANGELOG.md", str "TODO.md"]

/-- JS `o || d` for a number-valued option: `0` (the only falsy `Nat`) and an
absent value both fall back to the default. -/
def jsOrNat (o : Option Nat) (d : Nat) : Nat :=
  match o with
  | some n => if n = 0 then d else n
  | none => d

/-- The options accepted by `searchContext`; `none` models an absent key. -/
structure OracleOptions where
  files : Option (List Str) := none
  maxResults : Option Nat := none
  contextLines : Option Nat := none

/-- `searchContext` (source lines 43-94).  The filesystem is `fsRead`, mapping
a file name to its content or `none` for ENOENT (absent files contribute
nothing); `now` is the wall-clock timestamp string. -/
def searchContext (fsRead : Str → Option Str) (now : Str) (query : Str)
    (opts : OracleOptions) : Except OracleError SearchResults :=
  if query = [] then .error .validation
  else
    let files := opts.files.getD DEFAULT_MEMORY_FILES
    let maxResults := jsOrNat opts.maxResults 5
    let contextLines := jsOrNat opts.contextLines 3
    let st := files.foldl (fun (acc : List MatchEntry × Nat × Nat) (file : Str) =>
      match fsRead file with
      | none => acc
      | some content =>
        let fileMatches := searchFile content query
          { maxResults := maxResults, contextLines := contextLines, fileName := file }
        if 0 < fileMatches.length then
          (acc.1 ++ fileMatches, acc.2.1 + 1, acc.2.2 + fileMatches.length)
        else acc) ([], 0, 0)
    .ok { query := jsTrim query, timestamp := now, matchList := st.1,
          total_matches := st.2.2, files_searched := st.2.1,
          prior_attempts := countMentions priorWords st.1,
          failures := countMentions failureWords st.1,
          successes := countMentions successWords st.1 }

/-! ### Execution tracker (`atlas-tracker.js`) -/

/-- The error taxonomy of the spec: `ValidationError`, `NotFoundError`,
`CorruptionError` (the tracker raises all three). -/
inductive TrackerError
  | validation
  | notFound
  | corruption
deriving DecidableEq

/-- Fixed schema tag (source line 25). -/
def SCHEMA_VERSION : Str := str "1.0"

/-- One task record, as serialised to a JSONL line (source lines 42-55).
`start_ts`/`end_ts` are milliseconds since the epoch, `duration_min` is a
rational number of minutes, `metadata` is the flat key-to-value object. -/
structure TaskEntry where
  task_id : Str
  description : Str
  start_ts : Int
  end_ts : Option Int
  duration_min : Option ℚ
  success : Bool
  failure_reason : Option Str
  tools_used : List Str
  files_modified : List Str
  outcome_quality : Str
  metadata : List (Str × Str)
  schema_version : Str
deriving DecidableEq

/-- One physical line of the JSONL file: a line `JSON.parse` turns into a
record, an empty line, or a non-empty line on which `JSON.parse` throws. -/
inductive LogLine
  | entry (e : TaskEntry)
  | blank
  | garbage
deriving DecidableEq

/-- The backing store: `none` models an absent log file (ENOENT). -/
abbrev Log := Option (List LogLine)

/-- Whether a line is empty (removed by `filter(line => line.length > 0)`). -/
def isBlankLine : LogLine → Bool
  | .blank => true
  | _ => false

/-- Parse every retained line; the first unparsable line aborts the whole
read (`JSON.parse` throws out of the `map` in `readLog`). -/
def parseRecords : List LogLine → Except TrackerError (List TaskEntry)
  | [] => .ok []
  | .entry e :: rest => (parseRecords rest).map (fun es => e :: es)
  | .blank :: rest => parseRecords rest
  | .garbage :: _ => .error .corruption

/-- `readLog` (source lines 204-218): an absent file is an empty store; blank
lines are dropped; any unparsable line is a `CorruptionError` for the whole
read. -/
def readLog (log : Log) : Except TrackerError (List TaskEntry) :=
  match log with
  | none => .ok []
  | some lines => parseRecords (lines.filter (fun l => !isBlankLine l))

/-- `appendToLog` (source lines 193-197): append one serialised record,
creating the file if absent. -/
def appendToLog (log : Log) (e : TaskEntry) : Log :=
  some (log.getD [] ++ [.entry e])

/-- `rewriteLog` (source lines 226-230): replace the file with the serialised
entries. -/
def rewriteLog (entries : List TaskEntry) : Log :=
  some (entries.map .entry)

/-- `startTask` (source lines 34-59).  `taskId` stands for the freshly drawn
`randomUUID()`, `now` for `new Date()`; the returned pair is the task id and
the store after the append. -/
def startTask (now : Int) (taskId : Str) (description : Str)
    (metadata : Option (List (Str × Str))) (log : Log) :
    Except TrackerError (Str × Log) :=
  if description = [] then .error .validation
  else
    .ok (taskId, appendToLog log
      { task_id := taskId, description := jsTrim description, start_ts := now,
        end_ts := none, duration_min := none, success := false,
        failure_reason := none, tools_used := [], files_modified := [],
        outcome_quality := str "incomplete", metadata := metadata.getD [],
        schema_version := SCHEMA_VERSION })

/-- JS `[...new Set(list)]` insertion step: an already-present element is
ignored, a new one is appended. -/
def jsSetAdd (acc : List Str) (x : Str) : List Str :=
  if x ∈ acc then acc else acc ++ [x]

/-- JS `[...new Set(list)]`: insert every element in order and list the set
in insertion order. -/
def jsSetOf (l : List Str) : List Str := l.foldl jsSetAdd []

/-- Keep the first occurrence of every element, in order of first appearance
(the specification-side description of `[...new Set(...)]`). -/
def dedupFirst : List Str → List Str
  | [] => []
  | x :: xs => x :: dedupFirst (xs.filter (fun y => decide (y ≠ x)))
termination_by l => l.length
decreasing_by simpa using Nat.lt_succ_of_le (List.length_filter_le _ _)

/-- JS object spread `{...a, ...b}`: keys of `a` keep their position (values
overridden by `b` where present), new keys of `b` follow. -/
def jsSpreadMerge (a b : List (Str × Str)) : List (Str × Str) :=
  a.map (fun p => match b.find? (fun q => q.1 == p.1) with
    | some q => (p.1, q.2)
    | none => p)
  ++ b.filter (fun q => !(a.any (fun p => p.1 == q.1)))

/-- The update payload of `updateTask`; `none` models an absent key (note
that in JS an *empty array* is truthy and still triggers the union). -/
structure TaskUpdates where
  tools_used : Option (List Str) := none
  files_modified : Option (List Str) := none
  metadata : Option (List (Str × Str)) := none

/-- Apply the merge block of `updateTask` (source lines 84-93) to the found
entry. -/
def applyUpdates (updates : TaskUpdates) (e : TaskEntry) : TaskEntry :=
  let e1 := match updates.tools_used with
    | some ts => { e with tools_used := jsSetOf (e.tools_used ++ ts) }
    | none => e
  let e2 := match updates.files_modified with
    | some fsM => { e1 with files_modified := jsSetOf (e1.files_modified ++ fsM) }
    | none => e1
  match updates.metadata with
  | some m => { e2 with metadata := jsSpreadMerge e2.metadata m }
  | none => e2

/-- Replace the first element satisfying `p` (the JS code mutates the object
returned by `entries.find(...)` in place and rewrites the whole list). -/
def replaceFirst {α : Type} (p : α → Bool) (f : α → α) : List α → List α
  | [] => []
  | x :: xs => if p x then f x :: xs else x :: replaceFirst p f xs

/-- `updateTask` (source lines 71-96). -/
def updateTask (taskId : Str) (updates : TaskUpdates) (log : Log) :
    Except TrackerError Log :=
  if taskId = [] then .error .validation
  else
    (readLog log).bind (fun entries =>
      match entries.find? (fun e => e.task_id == taskId) with
      | none => .error .notFound
      | some _ =>
        .ok (rewriteLog (replaceFirst (fun e => e.task_id == taskId)
          (applyUpdates updates) entries)))

/-- JS `Math.round`: round half towards positive infinity. -/
def jsRound (q : ℚ) : ℤ := ⌊q + 1 / 2⌋

/-- JS `Math.round(x * 100) / 100`: round to two decimal places. -/
def jsRound2 (q : ℚ) : ℚ := (jsRound (q * 100) : ℚ) / 100

/-- JS `o || d` for a string-valued option: an absent value and the (falsy)
empty string both fall back to the default. -/
def jsOrStr (o : Option Str) (d : Str) : Str :=
  match o with
  | some s => if s = [] then d else s
  | none => d

/-- JS `o || null` for a string-valued option: the empty string collapses to
null. -/
def jsStrOrNull (o : Option Str) : Option Str :=
  match o with
  | some s => if s = [] then none else some s
  | none => none

/-- The closed enumeration accepted for `outcome_quality` (source line 136). -/
def validQualities : List Str :=
  [str "complete", str "incomplete", str "partial", str "abandoned"]

/-- The outcome payload of `endTask`; `none` models an absent key. -/
structure Outcome where
  success : Option Bool := none
  duration_min : Option ℚ := none
  failure_reason : Option Str := none
  outcome_quality : Option Str := none

/-- The field assignments of `endTask` (source lines 122-133) applied to the
found entry: `end_ts := now`, duration from the explicit override or the
elapsed time in minutes, rounded to two decimals, `success` defaulting to
`false`, `failure_reason` collapsed through `|| null`, and `outcome_quality`
defaulting (through `||`) from the just-assigned `success`. -/
def finalizeEntry (now : Int) (outcome : Outcome) (e : TaskEntry) : TaskEntry :=
  let durationMin : ℚ := match outcome.duration_min with
    | some d => d
    | none => ((now - e.start_ts : ℤ) : ℚ) / 60000
  let succ := outcome.success.getD false
  { e with
    end_ts := some now,
    duration_min := some (jsRound2 durationMin),
    success := succ,
    failure_reason := jsStrOrNull outcome.failure_reason,
    outcome_quality := jsOrStr outcome.outcome_quality
      (if succ then str "complete" else str "incomplete") }

/-- `endTask` (source lines 109-142): look the entry up, assign the outcome
fields, then validate `outcome_quality` — the throw happens before
`rewriteLog`, so an invalid value never reaches the store. -/
def endTask (now : Int) (taskId : Str) (outcome : Outcome) (log : Log) :
    Except TrackerError Log :=
  if taskId = [] then .error .validation
  else
    (readLog log).bind (fun entries =>
      match entries.find? (fun e => e.task_id == taskId) with
      | none => .error .notFound
      | some e =>
        if (finalizeEntry now outcome e).outcome_quality ∈ validQualities then
          .ok (rewriteLog (replaceFirst (fun x => x.task_id == taskId)
            (fun _ => finalizeEntry now outcome e) entries))
        else .error .validation)

/-- `getTask` (source lines 150-154): first record with the given id, or
`none`. -/
def getTask (taskId : Str) (log : Log) : Except TrackerError (Option TaskEntry) :=
  (readLog log).map (fun entries => entries.find? (fun e => e.task_id == taskId))

/-- The filter options of `getTasks`; `none` models an absent key. -/
structure QueryOptions where
  success : Option Bool := none
  since : Option Int := none
  limit : Option Nat := none

/-- `getTasks` (source lines 165-185): optional success filter, optional
since filter (`if (options.since)` — a zero timestamp is falsy and ignored),
and `entries.slice(-limit)` under `if (options.limit)` — a zero limit is
falsy and ignored. -/
def getTasks (opts : QueryOptions) (log : Log) : Except TrackerError (List TaskEntry) :=
  (readLog log).map (fun entries =>
    let e1 := match opts.success with
      | some s => entries.filter (fun e => e.success == s)
      | none => entries
    let e2 := match opts.since with
      | some t => if t = 0 then e1 else e1.filter (fun e => decide (t ≤ e.start_ts))
      | none => e1
    match opts.limit with
    | some n => if n = 0 then e2 else e2.drop (e2.length - n)
    | none => e2)

/-- A concrete record used by the closed witness statements. -/
def mkSample (id : Str) (t : Int) : TaskEntry :=
  { task_id := id, description := str "task", start_ts := t, end_ts := none,
    duration_min := none, success := false, failure_reason := none,
    tools_used := [], files_modified := [], outcome_quality := str "incomplete",
    metadata := [], schema_version := SCHEMA_VERSION }

/-! ### Supporting lemmas -/

theorem parseRecords_map_entry (es : List TaskEntry) :
    parseRecords (es.map .entry) = .ok es := by
  induction es with
  | nil => rfl
  | cons e rest ih => simp [parseRecords, ih, Except.map]

theorem readLog_rewriteLog (es : List TaskEntry) :
    readLog (rewriteLog es) = .ok es := by
  have hfilter : (es.map LogLine.entry).filter (fun l => !isBlankLine l) = es.map .entry := by
    apply List.filter_eq_self.mpr
    intro l hl
    obtain ⟨e, _, rfl⟩ := List.mem_map.mp hl
    rfl
  simp [readLog, rewriteLog, hfilter, parseRecords_map_entry]

theorem parseRecords_append_entry (ls : List LogLine) (es : List TaskEntry) (e : TaskEntry)
    (h : parseRecords ls = .ok es) :
    parseRecords (ls ++ [.entry e]) = .ok (es ++ [e]) := by
  induction ls generalizing es with
  | nil =>
    simp [parseRecords] at h
    subst h
    simp [parseRecords, Except.map]
  | cons l rest ih =>
    cases l with
    | entry e0 =>
      cases hrest : parseRecords rest with
      | ok es0 =>
        have h' : e0 :: es0 = es := by
          simpa [parseRecords, hrest, Except.map] using h
        subst h'
        simp [parseRecords, List.cons_append, ih es0 hrest, Except.map]
      | error err =>
        rw [parseRecords, hrest] at h
        simp [Except.map] at h
    | blank =>
      simp only [parseRecords] at h ⊢
      exact ih es h
    | garbage => simp [parseRecords] at h

theorem readLog_appendToLog (log : Log) (es : List TaskEntry) (e : TaskEntry)
    (h : readLog log = .ok es) :
    readLog (appendToLog log e) = .ok (es ++ [e]) := by
  cases log with
  | none =>
    simp [readLog] at h
    subst h
    simp [readLog, appendToLog, parseRecords, Except.map]
  | some lines =>
    simp only [readLog, appendToLog, Option.getD] at h ⊢
    rw [List.filter_append]
    have : ([LogLine.entry e].filter (fun l => !isBlankLine l)) = [.entry e] := rfl
    rw [this]
    exact parseRecords_append_entry _ es e h

theorem parseRecords_of_garbage_mem (ls : List LogLine) (h : LogLine.garbage ∈ ls) :
    parseRecords ls = .error .corruption := by
  induction ls with
  | nil => cases h
  | cons l rest ih =>
    cases l with
    | entry e0 =>
      have hrest : LogLine.garbage ∈ rest := by simpa using h
      simp [parseRecords, ih hrest, Except.map]
    | blank =>
      have hrest : LogLine.garbage ∈ rest := by simpa using h
      simp [parseRecords, ih hrest]
    | garbage => rfl

theorem readLog_of_garbage_mem (lines : List LogLine) (h : LogLine.garbage ∈ lines) :
    readLog (some lines) = .error .corruption := by
  have hmem : LogLine.garbage ∈ lines.filter (fun l => !isBlankLine l) :=
    List.mem_filter.mpr ⟨h, rfl⟩
  simp [readLog, parseRecords_of_garbage_mem _ hmem]

theorem find?_append_of_none {α : Type} (p : α → Bool) (l1 l2 : List α)
    (h : l1.find? p = none) : (l1 ++ l2).find? p = l2.find? p := by
  induction l1 with
  | nil => rfl
  | cons x xs ih =>
    by_cases hx : p x
    · rw [List.find?_cons_of_pos _ hx] at h
      simp at h
    · rw [List.find?_cons_of_neg _ hx] at h
      rw [List.cons_append, List.find?_cons_of_neg _ hx]
      exact ih h

theorem find?_replaceFirst {α : Type} (p : α → Bool) (f : α → α) (l : List α) (e : α)
    (h : l.find? p = some e) (hf : p (f e) = true) :
    (replaceFirst p f l).find? p = some (f e) := by
  induction l with
  | nil => cases h
  | cons x xs ih =>
    by_cases hx : p x
    · have hex : x = e := by
        rw [List.find?_cons_of_pos _ hx] at h
        exact Option.some.inj h
      subst hex
      rw [replaceFirst, if_pos hx, List.find?_cons_of_pos _ hf]
    · rw [List.find?_cons_of_neg _ hx] at h
      rw [replaceFirst, if_neg hx, List.find?_cons_of_neg _ hx]
      exact ih h

theorem dedupFirst_cons (x : Str) (xs : List Str) :
    dedupFirst (x :: xs) = x :: dedupFirst (xs.filter (fun y => decide (y ≠ x))) := by
  rw [dedupFirst]

theorem foldl_jsSetAdd (l : List Str) :
    ∀ acc : List Str,
      l.foldl jsSetAdd acc = acc ++ dedupFirst (l.filter (fun y => decide (y ∉ acc))) := by
  induction l with
  | nil => intro acc; simp [dedupFirst]
  | cons x xs ih =>
    intro acc
    by_cases hx : x ∈ acc
    · have hstep : jsSetAdd acc x = acc := by simp [jsSetAdd, hx]
      have hfilter : (x :: xs).filter (fun y => decide (y ∉ acc))
          = xs.filter (fun y => decide (y ∉ acc)) := by
        simp [List.filter_cons, hx]
      rw [List.foldl_cons, hstep, hfilter, ih acc]
    · have hstep : jsSetAdd acc x = acc ++ [x] := by simp [jsSetAdd, hx]
      have hfilter : (x :: xs).filter (fun y => decide (y ∉ acc))
          = x :: xs.filter (fun y => decide (y ∉ acc)) := by
        simp [List.filter_cons, hx]
      have hpred : ∀ y : Str, ((decide (y ≠ x)) && (decide (y ∉ acc)))
          = decide (y ∉ acc ++ [x]) := by
        intro y
        by_cases hy1 : y ∈ acc <;> by_cases hy2 : y = x <;>
          simp [hy1, hy2, List.mem_append]
      rw [List.foldl_cons, hstep, ih (acc ++ [x]), hfilter, dedupFirst_cons,
        List.filter_filter]
      simp only [hpred]
      simp [List.append_assoc]

theorem jsSetOf_eq_dedupFirst (l : List Str) : jsSetOf l = dedupFirst l := by
  have h := foldl_jsSetAdd l []
  simpa [jsSetOf, List.filter_eq_self] using h

theorem mem_dedupFirst (a : Str) (l : List Str) : a ∈ dedupFirst l ↔ a ∈ l := by
  induction l using dedupFirst.induct with
  | case1 => simp [dedupFirst]
  | case2 x xs ih =>
    rw [dedupFirst_cons]
    constructor
    · intro h
      rcases List.mem_cons.mp h with h0 | h0
      · simp [h0]
      · exact List.mem_cons.mpr (Or.inr (List.mem_of_mem_filter (ih.mp h0)))
    · intro h
      rcases List.mem_cons.mp h with h0 | h0
      · simp [h0]
      · by_cases hax : a = x
        · simp [hax]
        · exact List.mem_cons.mpr (Or.inr (ih.mpr (List.mem_filter.mpr ⟨h0, by simp [hax]⟩)))

theorem nodup_dedupFirst (l : List Str) : (dedupFirst l).Nodup := by
  induction l using dedupFirst.induct with
  | case1 => simp [dedupFirst]
  | case2 x xs ih =>
    rw [dedupFirst_cons]
    refine List.nodup_cons.mpr ⟨?_, ih⟩
    intro hx
    have := List.mem_filter.mp ((mem_dedupFirst _ _).mp hx)
    simp at this

theorem dedupFirst_sublist (l : List Str) : List.Sublist (dedupFirst l) l := by
  induction l using dedupFirst.induct with
  | case1 => simp [dedupFirst]
  | case2 x xs ih =>
    rw [dedupFirst_cons]
    exact List.Sublist.cons₂ x (ih.trans (List.filter_sublist xs))

theorem applyUpdates_task_id (u : TaskUpdates) (e : TaskEntry) :
    (applyUpdates u e).task_id = e.task_id := by
  obtain ⟨t, f, m⟩ := u
  cases t <;> cases f <;> cases m <;> rfl

theorem foldl_score (p : Str → Bool) (kws : List Str) :
    ∀ base : Nat,
      kws.foldl (fun s k => if p k then s + 2 else s) base = base + 2 * kws.countP p := by
  induction kws with
  | nil => intro base; simp
  | cons k rest ih =>
    intro base
    by_cases hk : p k
    · rw [List.foldl_cons, if_pos hk, ih, List.countP_cons, if_pos hk]
      ring
    · rw [List.foldl_cons, if_neg hk, ih, List.countP_cons, if_neg hk]
      omega

theorem lineScore_eq (ql : Str) (kws : List Str) (line : Str) :
    lineScore ql kws line
      = (if includesStr (toLowerStr line) ql then 10 else 0)
        + 2 * kws.countP (fun k => includesStr (toLowerStr line) k) := by
  simp only [lineScore]
  exact foldl_score _ kws _

theorem searchLoop_no_cap (fileName : Str) (lines : List Str) (ql : Str) (kws : List Str)
    (maxResults contextLines : Nat) (rest : List Str) :
    ∀ (i : Nat) (acc : List MatchEntry),
      acc.length + rest.countP (fun l => decide (0 < lineScore ql kws l)) ≤ maxResults →
      searchLoop fileName lines ql kws maxResults contextLines rest i acc
        = acc ++ ((List.enumFrom i rest).filter
              (fun p => decide (0 < lineScore ql kws p.2))).map
            (fun p => mkMatch fileName lines contextLines p.1 p.2 (lineScore ql kws p.2)) := by
  induction rest with
  | nil => intro i acc _; simp [searchLoop]
  | cons line rest ih =>
    intro i acc h
    rw [List.countP_cons] at h
    by_cases hs : 0 < lineScore ql kws line
    · rw [if_pos (by simpa using hs)] at h
      rw [searchLoop, if_pos hs]
      have hlen : (acc ++ [mkMatch fileName lines contextLines i line (lineScore ql kws line)]).length
          = acc.length + 1 := by simp
      by_cases hbreak : maxResults
          ≤ (acc ++ [mkMatch fileName lines contextLines i line (lineScore ql kws line)]).length
      · rw [if_pos hbreak]
        rw [hlen] at hbreak
        have hzero : rest.countP (fun l => decide (0 < lineScore ql kws l)) = 0 := by omega
        have hnil : (List.enumFrom (i + 1) rest).filter
            (fun p => decide (0 < lineScore ql kws p.2)) = [] := by
          apply List.filter_eq_nil_iff.mpr
          intro p hp
          obtain ⟨j, x⟩ := p
          have hp2 : x ∈ rest := by
            obtain ⟨h1, h2, h3⟩ := List.mem_enumFrom hp
            rw [h3]
            exact List.getElem_mem _
          have := List.countP_eq_zero.mp hzero x hp2
          simpa using this
        rw [List.enumFrom_cons]
        rw [List.filter_cons_of_pos (by simpa using hs)]
        simp [hnil]
      · rw [if_neg hbreak]
        rw [ih (i + 1) _ (by rw [hlen]; omega)]
        rw [List.enumFrom_cons, List.filter_cons_of_pos (by simpa using hs)]
        simp [List.append_assoc]
    · rw [if_neg (by simpa using hs)] at h
      rw [searchLoop, if_neg hs]
      rw [ih (i + 1) acc (by omega)]
      rw [List.enumFrom_cons, List.filter_cons_of_neg (by simpa using hs)]

theorem sortByScoreDesc_perm (ms : List MatchEntry) : (sortByScoreDesc ms).Perm ms :=
  List.mergeSort_perm ms _

/-! ### Claim theorems -/

/-- C1 (counterexample): contrary to the claim, a whitespace-only query is
*not* rejected: `"   "` is truthy in JS, so only the trim in the guard is
missing and `searchContext` proceeds and produces a `SearchResults` value
(with the `query` field trimmed down to the empty string). -/
theorem searchContext_whitespace_query_accepted :
    str "   " ≠ ([] : Str) ∧ jsTrim (str "   ") = ([] : Str) ∧
    searchContext (fun _ => none) (str "ts") (str "   ") {}
      = .ok { query := [], timestamp := str "ts", matchList := [],
              total_matches := 0, files_searched := 0,
              prior_attempts := 0, failures := 0, successes := 0 } := by
  refine ⟨by decide, by decide, by decide⟩

/-- C1 (amended): `searchContext` fails with `ValidationError` exactly when
the query is the empty string — the guard `!query` does not trim, so a
whitespace-only query is accepted and yields a `SearchResults` value whose
`query` field is the trimmed input. -/
theorem searchContext_rejects_only_empty_query (fsRead : Str → Option Str)
    (now query : Str) (opts : OracleOptions) :
    (searchContext fsRead now query opts = .error .validation ↔ query = []) ∧
    (query ≠ [] → ∃ r : SearchResults,
      searchContext fsRead now query opts = .ok r ∧ r.query = jsTrim query) := by
  constructor
  · constructor
    · intro h
      by_contra hq
      rw [searchContext, if_neg hq] at h
      exact Except.noConfusion h
    · intro h
      rw [searchContext, if_pos h]
  · intro hq
    rw [searchContext, if_neg hq]
    exact ⟨_, rfl, rfl⟩

/-- C1 (witness for the amended claim): a concrete non-empty query is
accepted and its `query` field is the trimmed input. -/
theorem searchContext_rejects_only_empty_query_witness :
    str " x " ≠ ([] : Str) ∧
    ∃ r : SearchResults,
      searchContext (fun _ => none) (str "t0") (str " x ") {} = .ok r ∧
      r.query = jsTrim (str " x ") :=
  ⟨by decide,
    (searchContext_rejects_only_empty_query (fun _ => none) (str "t0") (str " x ") {}).2
      (by decide)⟩

/-- C2: per-line relevance scoring.  The score of a line is 10 when the
lowered line contains the full lowered query, plus 2 for every keyword of
the query found in the lowered line (additive, every keyword hit counts);
and — as long as the per-file cap is not reached, the cap being the separate
early-exit behaviour — the matches returned by `searchFile` are exactly the
lines of positive score (as a permutation, because `searchFile` finally
sorts by descending score). -/
theorem searchFile_score_and_matches (content query : Str) (opts : SearchOptions)
    (hcap : (content.splitOn '\n').countP
        (fun l => decide (0 < lineScore (toLowerStr query) (extractKeywords query) l))
      ≤ opts.maxResults) :
    (lineScore (toLowerStr query) (extractKeywords query)
        = fun line => (if includesStr (toLowerStr line) (toLowerStr query) then 10 else 0)
            + 2 * (extractKeywords query).countP
                (fun k => includesStr (toLowerStr line) k)) ∧
    (searchFile content query opts).Perm
      (((List.enumFrom 0 (content.splitOn '\n')).filter
          (fun p => decide (0 < lineScore (toLowerStr query) (extractKeywords query) p.2))).map
        (fun p => mkMatch opts.fileName (content.splitOn '\n') opts.contextLines p.1 p.2
          (lineScore (toLowerStr query) (extractKeywords query) p.2))) := by
  constructor
  · funext line
    exact lineScore_eq _ _ _
  · rw [searchFile]
    rw [searchLoop_no_cap opts.fileName (content.splitOn '\n') (toLowerStr query)
      (extractKeywords query) opts.maxResults opts.contextLines (content.splitOn '\n') 0 []
      (by simpa using hcap)]
    rw [List.nil_append]
    exact sortByScoreDesc_perm _

/-- C2 (witness): a concrete three-line source where two lines score 12 and
one scores 0, with the cap hypothesis discharged. -/
theorem searchFile_score_and_matches_witness :
    ((str "alpha fox\nnothing here\nfox again").splitOn '\n').countP
        (fun l => decide (0 < lineScore (toLowerStr (str "fox")) (extractKeywords (str "fox")) l))
      ≤ 5 ∧
    (lineScore (toLowerStr (str "fox")) (extractKeywords (str "fox"))
        = fun line => (if includesStr (toLowerStr line) (toLowerStr (str "fox")) then 10 else 0)
            + 2 * (extractKeywords (str "fox")).countP
                (fun k => includesStr (toLowerStr line) k)) ∧
    (searchFile (str "alpha fox\nnothing here\nfox again")
        (str "fox") { maxResults := 5, contextLines := 1, fileName := str "M.md" }).Perm
      (((List.enumFrom 0 ((str "alpha fox\nnothing here\nfox again").splitOn '\n')).filter
          (fun p => decide (0 < lineScore (toLowerStr (str "fox"))
            (extractKeywords (str "fox")) p.2))).map
        (fun p => mkMatch (str "M.md") ((str "alpha fox\nnothing here\nfox again").splitOn '\n')
          1 p.1 p.2 (lineScore (toLowerStr (str "fox")) (extractKeywords (str "fox")) p.2))) := by
  refine ⟨by decide, ?_, ?_⟩
  · exact (searchFile_score_and_matches (str "alpha fox\nnothing here\nfox again") (str "fox")
      { maxResults := 5, contextLines := 1, fileName := str "M.md" } (by decide)).1
  · exact (searchFile_score_and_matches (str "alpha fox\nnothing here\nfox again") (str "fox")
      { maxResults := 5, contextLines := 1, fileName := str "M.md" } (by decide)).2

/-- C9 (counterexample): hyphens are kept *wherever* they occur, not only
word-internally: the regex class `[^\w\s-]` spares every hyphen, so the
token `"tidy-"` keeps its trailing hyphen instead of being stripped to
`"tidy"` as "strips punctuation except internal hyphens" would require. -/
theorem extractKeywords_keeps_edge_hyphen :
    extractKeywords (str "tidy- fox") = [str "tidy-", str "fox"] ∧
    str "tidy-" ≠ str "tidy" := by
  refine ⟨by decide, by decide⟩

/-- C9 (amended): `extractKeywords` lower-cases the input, replaces every
character that is not a word character, whitespace or a hyphen (hyphens are
kept wherever they occur, not only internally) by a space, splits on
whitespace, and keeps — in order of occurrence — exactly the tokens longer
than two characters that are not stop words; in particular
`"the quick brown fox"` loses `"the"` and keeps `"quick"`, `"brown"`,
`"fox"`. -/
theorem extractKeywords_pipeline :
    (extractKeywords (str "the quick brown fox") = [str "quick", str "brown", str "fox"]) ∧
    (str "the" ∉ extractKeywords (str "the quick brown fox")) ∧
    (∀ (q w : Str), w ∈ extractKeywords q → 2 < w.length ∧ w ∉ stopWords) ∧
    (∀ q : Str, List.Sublist (extractKeywords q)
      ((stripPunct (toLowerStr q)).splitOnP (fun c => c.isWhitespace))) := by
  refine ⟨by decide, by decide, ?_, ?_⟩
  · intro q w hw
    have hmem := List.mem_filter.mp hw
    have hpred := hmem.2
    rw [Bool.and_eq_true] at hpred
    constructor
    · exact of_decide_eq_true hpred.1
    · have := hpred.2
      simpa using this
  · intro q
    exact List.filter_sublist _

/-- C9 (witness): a concrete hyphenated token is kept and satisfies the
filter conditions. -/
theorem extractKeywords_pipeline_witness :
    str "fancy-build" ∈ extractKeywords (str "setup fancy-build now!") ∧
    (2 < (str "fancy-build").length ∧ str "fancy-build" ∉ stopWords) :=
  ⟨by decide, extractKeywords_pipeline.2.2.1 (str "setup fancy-build now!")
    (str "fancy-build") (by decide)⟩

/-- C10: `options.maxResults || 5` and `options.contextLines || 3` treat an
explicit `0` like an absent option, so passing zero silently restores the
defaults (5 results per source, 3 context lines), and no option value can
make the resolved limits zero. -/
theorem searchContext_zero_options_use_defaults (fsRead : Str → Option Str)
    (now query : Str) (files : Option (List Str)) :
    (searchContext fsRead now query
        { files := files, maxResults := some 0, contextLines := some 0 }
      = searchContext fsRead now query
        { files := files, maxResults := some 5, contextLines := some 3 }) ∧
    (jsOrNat (some 0) 5 = 5 ∧ jsOrNat (some 0) 3 = 3) ∧
    (∀ o : Option Nat, jsOrNat o 5 ≠ 0 ∧ jsOrNat o 3 ≠ 0) := by
  refine ⟨rfl, ⟨rfl, rfl⟩, ?_⟩
  intro o
  cases o with
  | none => exact ⟨by decide, by decide⟩
  | some n =>
    by_cases hn : n = 0
    · subst hn
      exact ⟨by decide, by decide⟩
    · constructor <;> simp [jsOrNat, hn]

/-- C4: a single unparsable line in the backing store makes every whole-store
read (`getTasks` and `getTask`) fail with `CorruptionError`, no matter how
many well-formed lines surround it; an absent backing store instead reads as
zero records (`getTasks` returns the empty list, `getTask` the "not found"
sentinel). -/
theorem readLog_strict_and_tolerant :
    (∀ (lines : List LogLine) (opts : QueryOptions) (id : Str),
        LogLine.garbage ∈ lines →
          getTasks opts (some lines) = .error .corruption ∧
          getTask id (some lines) = .error .corruption) ∧
    (∀ (opts : QueryOptions) (id : Str),
        getTasks opts none = .ok [] ∧ getTask id none = .ok none) := by
  constructor
  · intro lines opts id h
    have hr := readLog_of_garbage_mem lines h
    constructor
    · rw [getTasks, hr]
      rfl
    · rw [getTask, hr]
      rfl
  · intro opts id
    constructor
    · rw [getTasks]
      obtain ⟨s, si, li⟩ := opts
      cases s <;> cases si <;> cases li <;> simp [readLog, Except.map]
    · rw [getTask]
      rfl

/-- C4 (witness): a store holding one well-formed record followed by one
unparsable line fails both reads with `CorruptionError`. -/
theorem readLog_strict_and_tolerant_witness :
    LogLine.garbage ∈ [LogLine.entry (mkSample (str "a") 1), LogLine.garbage] ∧
    (getTasks {} (some [LogLine.entry (mkSample (str "a") 1), LogLine.garbage])
        = .error .corruption ∧
      getTask (str "a") (some [LogLine.entry (mkSample (str "a") 1), LogLine.garbage])
        = .error .corruption) :=
  ⟨by decide,
    readLog_strict_and_tolerant.1 [LogLine.entry (mkSample (str "a") 1), LogLine.garbage]
      {} (str "a") (by decide)⟩

/-- C5: with a positive count limit `n`, `getTasks` returns a suffix of the
filtered store of length `min n (length)` — i.e. the `n` most recently
created matching records in their original creation order (the store is
append-only, so store order is creation order). -/
theorem getTasks_limit_last_n (log : Log) (entries : List TaskEntry)
    (s : Option Bool) (si : Option Int) (n : Nat)
    (hread : readLog log = .ok entries) (hn : 0 < n) :
    let e1 := match s with
      | some b => entries.filter (fun e => e.success == b)
      | none => entries
    let e2 := match si with
      | some t => if t = 0 then e1 else e1.filter (fun e => decide (t ≤ e.start_ts))
      | none => e1
    ∃ res : List TaskEntry,
      getTasks { success := s, since := si, limit := some n } log = .ok res ∧
      List.IsSuffix res e2 ∧ res.length = min n e2.length := by
  intro e1 e2
  have hn' : ¬ n = 0 := Nat.pos_iff_ne_zero.mp hn
  refine ⟨e2.drop (e2.length - n), ?_, List.drop_suffix _ _, ?_⟩
  · rw [getTasks, hread]
    simp only [Except.map, if_neg hn']
  · rw [List.length_drop]
    omega

/-- C5 (witness): with records created in order a, b, c and limit 2, the
result is the suffix `[b, c]` — the most recent two in creation order, not
the first two. -/
theorem getTasks_limit_last_n_witness :
    readLog (some [.entry (mkSample (str "a") 1), .entry (mkSample (str "b") 2),
        .entry (mkSample (str "c") 3)])
      = .ok [mkSample (str "a") 1, mkSample (str "b") 2, mkSample (str "c") 3] ∧
    0 < 2 ∧
    (∃ res : List TaskEntry,
      getTasks { success := none, since := none, limit := some 2 }
          (some [.entry (mkSample (str "a") 1), .entry (mkSample (str "b") 2),
            .entry (mkSample (str "c") 3)])
        = .ok res ∧
      List.IsSuffix res [mkSample (str "a") 1, mkSample (str "b") 2, mkSample (str "c") 3] ∧
      res.length = min 2 ([mkSample (str "a") 1, mkSample (str "b") 2,
        mkSample (str "c") 3] : List TaskEntry).length) ∧
    getTasks { success := none, since := none, limit := some 2 }
        (some [.entry (mkSample (str "a") 1), .entry (mkSample (str "b") 2),
          .entry (mkSample (str "c") 3)])
      = .ok [mkSample (str "b") 2, mkSample (str "c") 3] :=
  ⟨by decide, by decide,
    getTasks_limit_last_n
      (some [.entry (mkSample (str "a") 1), .entry (mkSample (str "b") 2),
        .entry (mkSample (str "c") 3)])
      [mkSample (str "a") 1, mkSample (str "b") 2, mkSample (str "c") 3]
      none none 2 (by decide) (by decide),
    by decide⟩

/-- C6: creating a task with a non-empty description and reading it back by
its (fresh) id yields exactly the defaulted record: trimmed description,
`start_ts` set, no `end_ts`/`duration_min`, `success = false`, no
`failure_reason`, empty tool/file arrays, `outcome_quality = "incomplete"`,
the supplied metadata (or the empty mapping) and the fixed schema tag. -/
theorem startTask_getTask_roundtrip (now : Int) (taskId desc : Str)
    (metadata : Option (List (Str × Str))) (log : Log) (entries : List TaskEntry)
    (hread : readLog log = .ok entries)
    (hfresh : ∀ e ∈ entries, e.task_id ≠ taskId)
    (hdesc : desc ≠ []) :
    ∃ log' : Log,
      startTask now taskId desc metadata log = .ok (taskId, log') ∧
      getTask taskId log' = .ok (some
        { task_id := taskId, description := jsTrim desc, start_ts := now,
          end_ts := none, duration_min := none, success := false,
          failure_reason := none, tools_used := [], files_modified := [],
          outcome_quality := str "incomplete", metadata := metadata.getD [],
          schema_version := SCHEMA_VERSION }) := by
  refine ⟨appendToLog log
    { task_id := taskId, description := jsTrim desc, start_ts := now,
      end_ts := none, duration_min := none, success := false,
      failure_reason := none, tools_used := [], files_modified := [],
      outcome_quality := str "incomplete", metadata := metadata.getD [],
      schema_version := SCHEMA_VERSION }, ?_, ?_⟩
  · rw [startTask, if_neg hdesc]
  · have hlog := readLog_appendToLog log entries
      { task_id := taskId, description := jsTrim desc, start_ts := now,
        end_ts := none, duration_min := none, success := false,
        failure_reason := none, tools_used := [], files_modified := [],
        outcome_quality := str "incomplete", metadata := metadata.getD [],
        schema_version := SCHEMA_VERSION } hread
    rw [getTask, hlog]
    have hnone : entries.find? (fun e => e.task_id == taskId) = none := by
      apply List.find?_eq_none.mpr
      intro e he
      simpa using hfresh e he
    rw [Except.map]
    rw [find?_append_of_none _ _ _ hnone]
    rw [List.find?_cons_of_pos _ (by simp)]

/-- C6 (witness): round-trip on the empty store with a padded description and
explicit metadata. -/
theorem startTask_getTask_roundtrip_witness :
    readLog none = .ok ([] : List TaskEntry) ∧
    (∀ e ∈ ([] : List TaskEntry), e.task_id ≠ str "t1") ∧
    str "  hi  " ≠ ([] : Str) ∧
    (∃ log' : Log,
      startTask 7 (str "t1") (str "  hi  ") (some [(str "k", str "v")]) none
        = .ok (str "t1", log') ∧
      getTask (str "t1") log' = .ok (some
        { task_id := str "t1", description := jsTrim (str "  hi  "), start_ts := 7,
          end_ts := none, duration_min := none, success := false,
          failure_reason := none, tools_used := [], files_modified := [],
          outcome_quality := str "incomplete",
          metadata := (some [(str "k", str "v")]).getD [],
          schema_version := SCHEMA_VERSION })) :=
  ⟨by decide, by decide, by decide,
    startTask_getTask_roundtrip 7 (str "t1") (str "  hi  ") (some [(str "k", str "v")])
      none [] (by decide) (by decide) (by decide)⟩

/-- C7: after an `updateTask`, the `tools_used` and `files_modified` arrays
equal the first-occurrence deduplication of (old values ++ supplied values):
they are duplicate-free, ordered by first appearance (a sublist of the
concatenation), contain exactly the union of both lists — so in particular
every element present before the update is still present after it. -/
theorem updateTask_union_grows (taskId : Str) (ts fsM : List Str)
    (md : Option (List (Str × Str))) (log : Log) (entries : List TaskEntry) (e : TaskEntry)
    (hid : taskId ≠ [])
    (hread : readLog log = .ok entries)
    (hfind : entries.find? (fun x => x.task_id == taskId) = some e) :
    ∃ (log' : Log) (e' : TaskEntry),
      updateTask taskId { tools_used := some ts, files_modified := some fsM, metadata := md }
          log = .ok log' ∧
      getTask taskId log' = .ok (some e') ∧
      e'.tools_used = dedupFirst (e.tools_used ++ ts) ∧
      e'.files_modified = dedupFirst (e.files_modified ++ fsM) ∧
      List.Sublist e'.tools_used (e.tools_used ++ ts) ∧
      List.Sublist e'.files_modified (e.files_modified ++ fsM) ∧
      (∀ x : Str, x ∈ e'.tools_used ↔ x ∈ e.tools_used ++ ts) ∧
      (∀ x : Str, x ∈ e'.files_modified ↔ x ∈ e.files_modified ++ fsM) ∧
      e'.tools_used.Nodup ∧ e'.files_modified.Nodup := by
  have hpe := List.find?_some hfind
  have htools : (applyUpdates
      { tools_used := some ts, files_modified := some fsM, metadata := md } e).tools_used
      = jsSetOf (e.tools_used ++ ts) := by
    cases md <;> rfl
  have hfiles : (applyUpdates
      { tools_used := some ts, files_modified := some fsM, metadata := md } e).files_modified
      = jsSetOf (e.files_modified ++ fsM) := by
    cases md <;> rfl
  refine ⟨rewriteLog (replaceFirst (fun x => x.task_id == taskId)
      (applyUpdates { tools_used := some ts, files_modified := some fsM, metadata := md })
      entries),
    applyUpdates { tools_used := some ts, files_modified := some fsM, metadata := md } e,
    ?_, ?_, ?_⟩
  · rw [updateTask, if_neg hid, hread]
    rw [Except.bind, hfind]
  · have hlog := readLog_rewriteLog (replaceFirst (fun x => x.task_id == taskId)
      (applyUpdates { tools_used := some ts, files_modified := some fsM, metadata := md })
      entries)
    have hf : (fun x : TaskEntry => x.task_id == taskId)
        (applyUpdates { tools_used := some ts, files_modified := some fsM, metadata := md } e)
        = true := by
      show ((applyUpdates
        { tools_used := some ts, files_modified := some fsM, metadata := md } e).task_id
          == taskId) = true
      rw [applyUpdates_task_id]
      exact hpe
    rw [getTask, hlog, Except.map]
    rw [find?_replaceFirst _ _ _ _ hfind hf]
  · rw [htools, hfiles, jsSetOf_eq_dedupFirst, jsSetOf_eq_dedupFirst]
    exact ⟨rfl, rfl, dedupFirst_sublist _, dedupFirst_sublist _,
      fun x => mem_dedupFirst x _, fun x => mem_dedupFirst x _,
      nodup_dedupFirst _, nodup_dedupFirst _⟩

/-- C7 (witness): two overlapping tool lists collapse to the deduplicated
union in first-appearance order, keeping everything present before. -/
theorem updateTask_union_grows_witness :
    str "t" ≠ ([] : Str) ∧
    readLog (some [.entry { mkSample (str "t") 0 with tools_used := [str "exec"] }])
      = .ok [{ mkSample (str "t") 0 with tools_used := [str "exec"] }] ∧
    ([{ mkSample (str "t") 0 with tools_used := [str "exec"] }] : List TaskEntry).find?
        (fun x => x.task_id == str "t")
      = some { mkSample (str "t") 0 with tools_used := [str "exec"] } ∧
    (∃ (log' : Log) (e' : TaskEntry),
      updateTask (str "t")
          { tools_used := some [str "exec", str "write"], files_modified := some [],
            metadata := none }
          (some [.entry { mkSample (str "t") 0 with tools_used := [str "exec"] }])
        = .ok log' ∧
      getTask (str "t") log' = .ok (some e') ∧
      e'.tools_used
        = dedupFirst ([str "exec"] ++ [str "exec", str "write"]) ∧
      e'.files_modified = dedupFirst ([] ++ []) ∧
      List.Sublist e'.tools_used ([str "exec"] ++ [str "exec", str "write"]) ∧
      List.Sublist e'.files_modified ([] ++ []) ∧
      (∀ x : Str, x ∈ e'.tools_used ↔ x ∈ [str "exec"] ++ [str "exec", str "write"]) ∧
      (∀ x : Str, x ∈ e'.files_modified ↔ x ∈ ([] ++ [] : List Str)) ∧
      e'.tools_used.Nodup ∧ e'.files_modified.Nodup) :=
  ⟨by decide, by decide, by decide,
    updateTask_union_grows (str "t") [str "exec", str "write"] [] none
      (some [.entry { mkSample (str "t") 0 with tools_used := [str "exec"] }])
      [{ mkSample (str "t") 0 with tools_used := [str "exec"] }]
      { mkSample (str "t") 0 with tools_used := [str "exec"] }
      (by decide) (by decide) (by decide)⟩

/-- C3 (counterexample): the empty string is outside the enumeration, but
`entry.outcome_quality = '' || default` replaces it by the (valid) default,
so `endTask` does *not* fail: it succeeds and rewrites the store. -/
theorem endTask_empty_quality_not_rejected :
    ([] : Str) ∉ validQualities ∧
    endTask 60000 (str "t") { success := some false, outcome_quality := some [] }
        (some [.entry (mkSample (str "t") 0)])
      = .ok (rewriteLog [finalizeEntry 60000
          { success := some false, outcome_quality := some [] } (mkSample (str "t") 0)]) ∧
    (finalizeEntry 60000 { success := some false, outcome_quality := some [] }
        (mkSample (str "t") 0)).outcome_quality = str "incomplete" := by
  refine ⟨by decide, rfl, rfl⟩

/-- C3 (amended): when the store reads back and the record exists, `endTask`
with a supplied *non-empty* `outcome_quality` outside the four-value
enumeration fails with `ValidationError` — and, because the throw precedes
`rewriteLog`, no new store is produced, so the invalid value is never
persisted (an empty-string value is falsy and is replaced by the default
instead of being rejected). -/
theorem endTask_rejects_invalid_quality (now : Int) (taskId : Str) (outcome : Outcome)
    (log : Log) (entries : List TaskEntry) (e : TaskEntry) (q : Str)
    (hread : readLog log = .ok entries)
    (hfind : entries.find? (fun x => x.task_id == taskId) = some e)
    (hq : outcome.outcome_quality = some q) (hne : q ≠ [])
    (hinv : q ∉ validQualities) :
    endTask now taskId outcome log = .error .validation := by
  by_cases hid : taskId = []
  · rw [endTask, if_pos hid]
  · rw [endTask, if_neg hid, hread, Except.bind, hfind]
    have hqual : (finalizeEntry now outcome e).outcome_quality = q := by
      simp [finalizeEntry, jsOrStr, hq, hne]
    show (if (finalizeEntry now outcome e).outcome_quality ∈ validQualities then
        Except.ok (rewriteLog (replaceFirst (fun x => x.task_id == taskId)
          (fun _ => finalizeEntry now outcome e) entries))
      else Except.error TrackerError.validation) = Except.error TrackerError.validation
    rw [hqual, if_neg hinv]

/-- C3 (witness): `outcome_quality = "bogus"` on an existing record fails
with `ValidationError`. -/
theorem endTask_rejects_invalid_quality_witness :
    readLog (some [.entry (mkSample (str "w") 5)]) = .ok [mkSample (str "w") 5] ∧
    ([mkSample (str "w") 5] : List TaskEntry).find? (fun x => x.task_id == str "w")
      = some (mkSample (str "w") 5) ∧
    str "bogus" ≠ ([] : Str) ∧
    str "bogus" ∉ validQualities ∧
    endTask 9 (str "w") { outcome_quality := some (str "bogus") }
        (some [.entry (mkSample (str "w") 5)])
      = .error .validation :=
  ⟨by decide, by decide, by decide, by decide,
    endTask_rejects_invalid_quality 9 (str "w") { outcome_quality := some (str "bogus") }
      (some [.entry (mkSample (str "w") 5)]) [mkSample (str "w") 5] (mkSample (str "w") 5)
      (str "bogus") (by decide) (by decide) rfl (by decide) (by decide)⟩

/-- C8 (counterexample): a supplied empty-string `outcomeQuality` is falsy,
so the stored value is the default `"complete"` (from `succeeded = true`)
and not the supplied value. -/
theorem endTask_empty_quality_uses_default :
    endTask 120000 (str "u")
        { success := some true, duration_min := some 1, outcome_quality := some [] }
        (some [.entry (mkSample (str "u") 0)])
      = .ok (rewriteLog [finalizeEntry 120000
          { success := some true, duration_min := some 1, outcome_quality := some [] }
          (mkSample (str "u") 0)]) ∧
    (finalizeEntry 120000
        { success := some true, duration_min := some 1, outcome_quality := some [] }
        (mkSample (str "u") 0)).outcome_quality = str "complete" ∧
    str "complete" ≠ ([] : Str) := by
  refine ⟨rfl, rfl, by decide⟩

/-- C8 (amended): on the success path (store readable, record found, final
quality valid), `endTask` stores `duration_min` as the supplied value if one
was given, otherwise the elapsed `(now - start_ts)` in minutes — in both
cases rounded to two decimals — and stores `outcome_quality` as the supplied
value when a *non-empty* one is given, otherwise (absent or empty string)
`"complete"` when `success` is true and `"incomplete"` when it is false. -/
theorem endTask_duration_and_quality (now : Int) (taskId : Str) (outcome : Outcome)
    (log : Log) (entries : List TaskEntry) (e : TaskEntry)
    (hid : taskId ≠ [])
    (hread : readLog log = .ok entries)
    (hfind : entries.find? (fun x => x.task_id == taskId) = some e)
    (hq : (finalizeEntry now outcome e).outcome_quality ∈ validQualities) :
    ∃ (log' : Log) (e' : TaskEntry),
      endTask now taskId outcome log = .ok log' ∧
      getTask taskId log' = .ok (some e') ∧
      e'.end_ts = some now ∧
      e'.duration_min = some (jsRound2 (match outcome.duration_min with
        | some d => d
        | none => ((now - e.start_ts : ℤ) : ℚ) / 60000)) ∧
      e'.success = outcome.success.getD false ∧
      e'.outcome_quality = (match outcome.outcome_quality with
        | some q => if q = []
            then (if outcome.success.getD false then str "complete" else str "incomplete")
            else q
        | none => if outcome.success.getD false then str "complete" else str "incomplete") := by
  have hpe := List.find?_some hfind
  refine ⟨rewriteLog (replaceFirst (fun x => x.task_id == taskId)
      (fun _ => finalizeEntry now outcome e) entries),
    finalizeEntry now outcome e, ?_, ?_, rfl, rfl, rfl, ?_⟩
  · rw [endTask, if_neg hid, hread, Except.bind, hfind]
    show (if (finalizeEntry now outcome e).outcome_quality ∈ validQualities then
        Except.ok (rewriteLog (replaceFirst (fun x => x.task_id == taskId)
          (fun _ => finalizeEntry now outcome e) entries))
      else Except.error TrackerError.validation)
      = Except.ok (rewriteLog (replaceFirst (fun x => x.task_id == taskId)
          (fun _ => finalizeEntry now outcome e) entries))
    rw [if_pos hq]
  · have hlog := readLog_rewriteLog (replaceFirst (fun x => x.task_id == taskId)
      (fun _ => finalizeEntry now outcome e) entries)
    have hf : (fun x : TaskEntry => x.task_id == taskId) (finalizeEntry now outcome e)
        = true := by
      show ((finalizeEntry now outcome e).task_id == taskId) = true
      exact hpe
    rw [getTask, hlog, Except.map]
    rw [find?_replaceFirst (fun x : TaskEntry => x.task_id == taskId)
      (fun _ => finalizeEntry now outcome e) entries e hfind hf]
  · cases hoq : outcome.outcome_quality with
    | none => simp [finalizeEntry, jsOrStr, hoq]
    | some q => simp [finalizeEntry, jsOrStr, hoq]

/-- C8 (witness): no explicit duration (90 s elapsed from `start_ts = 0`
rounds to 1.5 minutes) and a supplied quality `"partial"` are both stored. -/
theorem endTask_duration_and_quality_witness :
    str "u2" ≠ ([] : Str) ∧
    readLog (some [.entry (mkSample (str "u2") 0)]) = .ok [mkSample (str "u2") 0] ∧
    ([mkSample (str "u2") 0] : List TaskEntry).find? (fun x => x.task_id == str "u2")
      = some (mkSample (str "u2") 0) ∧
    (finalizeEntry 90000 { outcome_quality := some (str "partial") }
        (mkSample (str "u2") 0)).outcome_quality ∈ validQualities ∧
    (∃ (log' : Log) (e' : TaskEntry),
      endTask 90000 (str "u2") { outcome_quality := some (str "partial") }
          (some [.entry (mkSample (str "u2") 0)]) = .ok log' ∧
      getTask (str "u2") log' = .ok (some e') ∧
      e'.end_ts = some 90000 ∧
      e'.duration_min = some (jsRound2 (match (none : Option ℚ) with
        | some d => d
        | none => ((90000 - (mkSample (str "u2") 0).start_ts : ℤ) : ℚ) / 60000)) ∧
      e'.success = (none : Option Bool).getD false ∧
      e'.outcome_quality = (match some (str "partial") with
        | some q => if q = []
            then (if (none : Option Bool).getD false then str "complete" else str "incomplete")
            else q
        | none => if (none : Option Bool).getD false then str "complete" else str "incomplete")) :=
  ⟨by decide, by decide, by decide, by decide,
    endTask_duration_and_quality 90000 (str "u2") { outcome_quality := some (str "partial") }
      (some [.entry (mkSample (str "u2") 0)]) [mkSample (str "u2") 0] (mkSample (str "u2") 0)
      (by decide) (by decide) (by decide) (by decide)⟩

end Atlas
